import Mathlib

/-!
Verification of the Reimagine clinic billing and appointment program
(`Dermatologist_billing.py`).

The development shallowly embeds the program's data model and operations:
pure formatting code becomes Lean functions on strings and exact rationals
(the Python float arithmetic for the VIP discount is modelled by exact
rational arithmetic, which agrees with the float computation on every value
the claims evaluate); file-backed state becomes explicit list passing; the
JSON files are modelled at the level of parsed JSON values, since the
serialisation itself is performed by Python's standard `json` module, which
is external to the repository.  Fallible operations return an outcome tag
together with the resulting store, so that "store unchanged on error" is
directly expressible.  Character-level operations (`lower`, `strip`,
substring test, lexicographic comparison) are modelled for Unicode code
points the way Python treats ASCII text, which covers every input the
claims touch.
-/

namespace Clinic

/-! ### String helpers mirroring Python string formatting -/

/-- A run of `n` spaces, as used by Python's format-spec padding. -/
def spaces (n : Nat) : String := String.mk (List.replicate n ' ')

/-- A run of `n` copies of character `c`, modelling Python's `c * n`. -/
def repChar (c : Char) (n : Nat) : String := String.mk (List.replicate n c)

/-- Python `f-string` left justification `{s:<w}`: pad on the right, never truncate. -/
def ljust (s : String) (w : Nat) : String := s ++ spaces (w - s.length)

/-- Python `f-string` right justification `{s:>w}`. -/
def rjust (s : String) (w : Nat) : String := spaces (w - s.length) ++ s

/-- Python `f-string` centering `{s:^w}`: extra padding character goes to the right. -/
def cjust (s : String) (w : Nat) : String :=
  spaces ((w - s.length) / 2) ++ s ++ spaces (w - s.length - (w - s.length) / 2)

/-- Whether the first character list is an initial segment of the second. -/
def listStarts : List Char → List Char → Bool
  | [], _ => true
  | _ :: _, [] => false
  | a :: as, b :: bs => a == b && listStarts as bs

/-- Whether the first character list occurs contiguously inside the second. -/
def listIn (n : List Char) : List Char → Bool
  | [] => listStarts n []
  | b :: bs => listStarts n (b :: bs) || listIn n bs

/-- Python's substring test `needle in hay` (an empty needle is in every string). -/
def strIn (needle hay : String) : Bool := listIn needle.data hay.data

/-- Boolean lexicographic `≤` on character lists by code point, as Python compares `str`. -/
def lexLe : List Char → List Char → Bool
  | [], _ => true
  | _ :: _, [] => false
  | a :: as, b :: bs => if a < b then true else if b < a then false else lexLe as bs

/-- Python string comparison `s <= t` (lexicographic on code points). -/
def strLe (s t : String) : Bool := lexLe s.data t.data

/-! ### Rendering of monetary values

`fmt2 q` models Python's `f"{x:.2f}"` applied to the number `x` that the
program computes.  The program computes `x` in binary floating point; the
model computes the same expression in exact rational arithmetic and rounds
half-up to hundredths.  On every value the claims evaluate the float result
is an exact multiple of `1/100`, where the two renderings agree. -/

/-- Render a rational to a decimal string with exactly two digits after the point. -/
def fmt2 (q : ℚ) : String :=
  let a : ℚ := if q < 0 then -q else q
  let n : Nat := (a.num.toNat * 200 + a.den) / (2 * a.den)
  (if q < 0 then "-" else "") ++ toString (n / 100) ++ "." ++
    (if n % 100 < 10 then "0" else "") ++ toString (n % 100)

/-! ### The bill formatter (`Patient.get_bill_text`) -/

/-- The ephemeral per-bill patient record of the program's `Patient` class.
Treatments are (name, integer cost) pairs, as built from `GenericTreatment`
objects whose costs come from integer entry fields. -/
structure Patient where
  name : String
  phone : String
  patient_type : String
  vip_discount : Int
  treatments : List (String × Int)
  prescription : String
deriving DecidableEq

/-- The running total of treatment costs (`total` in `get_bill_text`). -/
def bill_total (p : Patient) : Int := (p.treatments.map Prod.snd).sum

/-- The discount amount: `total * (vip_discount / 100)` for a VIP, else `0`. -/
def bill_discount (p : Patient) : ℚ :=
  if p.patient_type = "VIP" then (bill_total p : ℚ) * ((p.vip_discount : ℚ) / 100) else 0

/-- The amount due after the discount (`total_after_discount`). -/
def bill_total_after (p : Patient) : ℚ := (bill_total p : ℚ) - bill_discount p

/-- The lines of the rendered bill, exactly as `Patient.get_bill_text` builds
them (the current timestamp string is passed in as `now`).  Each treatment
line prints the integer cost with Python's default `str` conversion, and the
subtotal/discount lines appear only when the computed discount is positive. -/
def get_bill_text_lines (p : Patient) (now : String) : List String :=
  [repChar '=' 60,
   cjust " Reimagine Hair Transplant & Skin Care Clinic " 60,
   repChar '=' 60,
   "Patient Name : " ++ p.name,
   "Phone Number : " ++ p.phone,
   "Patient Type : " ++ p.patient_type,
   "Date & Time  : " ++ now,
   repChar '-' 60,
   ljust "Treatment" 35 ++ rjust "Cost (Rs.)" 20,
   repChar '-' 60]
  ++ p.treatments.map (fun t => ljust t.1 35 ++ rjust (toString t.2) 20)
  ++ [repChar '-' 60]
  ++ (if bill_discount p > 0 then
        [ljust "Subtotal" 35 ++ rjust (fmt2 (bill_total p : ℚ)) 20,
         ljust ("VIP Discount (" ++ toString p.vip_discount ++ "%)") 35 ++
           rjust (fmt2 (-(bill_discount p))) 20]
      else [])
  ++ [ljust "Total Bill" 35 ++ rjust (fmt2 (bill_total_after p)) 20,
      repChar '=' 60,
      cjust "Thank you for choosing our clinic!" 60,
      repChar '=' 60]

/-- The rendered bill text: the lines joined with newlines. -/
def get_bill_text (p : Patient) (now : String) : String :=
  String.intercalate "\n" (get_bill_text_lines p now)

/-- The lines of the rendered prescription (`Patient.get_prescription_text`). -/
def get_prescription_text_lines (p : Patient) (now : String) : List String :=
  [repChar '=' 60,
   cjust " Prescription " 60,
   repChar '=' 60,
   "Patient Name : " ++ p.name,
   "Phone Number : " ++ p.phone,
   "Date & Time  : " ++ now,
   repChar '-' 60,
   (if p.prescription = "" then "No prescription provided." else p.prescription),
   repChar '=' 60]

/-- The rendered prescription text. -/
def get_prescription_text (p : Patient) (now : String) : String :=
  String.intercalate "\n" (get_prescription_text_lines p now)

/-! ### Session state for printing and saving

The GUI controller holds `self.patient`, which is `None` until a successful
`generate_bill_prescription` builds a `Patient` (the `Generated` state) and is
reset to `None` by `reset_all`.  Both output actions guard on it. -/

/-- Result of an output action: either the not-ready error dialog, or the
combined bill-and-prescription text handed to the print/save collaborator. -/
inductive DocResult where
  | notReady
  | produced (text : String)
deriving DecidableEq

/-- The combined text both output actions hand over. -/
def combined_text (p : Patient) (now : String) : String :=
  get_bill_text p now ++ "\n\n" ++ get_prescription_text p now

/-- `print_bill_and_prescription`: with no generated patient it shows the
"Generate bill and prescription first" error and returns without printing;
otherwise it hands the combined text to the platform print helper. -/
def print_bill_and_prescription (patient : Option Patient) (now : String) : DocResult :=
  match patient with
  | none => .notReady
  | some p => .produced (combined_text p now)

/-- `save_to_txt`: the same guard, handing the combined text to the file writer. -/
def save_to_txt (patient : Option Patient) (now : String) : DocResult :=
  match patient with
  | none => .notReady
  | some p => .produced (combined_text p now)

/-! ### Python string primitives used by the appointment code -/

/-- Python's `str.strip()` with no argument: remove leading and trailing whitespace. -/
def strip (s : String) : String :=
  String.mk (((s.data.dropWhile Char.isWhitespace).reverse.dropWhile Char.isWhitespace).reverse)

/-- ASCII lowering of one character, as Python's `str.lower()` acts on ASCII letters. -/
def lowerChar (c : Char) : Char :=
  if 'A' ≤ c && c ≤ 'Z' then Char.ofNat (c.toNat + 32) else c

/-- Python's `str.lower()` (restricted to its ASCII action, which covers all claim inputs). -/
def lower (s : String) : String := String.mk (s.data.map lowerChar)

/-- The numeric value of a list of decimal digit characters. -/
def digitsToNat (cs : List Char) : Nat :=
  cs.foldl (fun acc c => acc * 10 + (c.toNat - 48)) 0

/-! ### Calendar dates and `datetime.strptime(s, "%Y-%m-%d")` -/

/-- A calendar date as `datetime.date` holds it. -/
structure Date where
  year : Nat
  month : Nat
  day : Nat
deriving DecidableEq

/-- Python `date` comparison `a < b` (lexicographic on year, month, day). -/
def dlt (a b : Date) : Bool :=
  a.year < b.year ||
    (a.year == b.year && (a.month < b.month || (a.month == b.month && a.day < b.day)))

/-- The Gregorian leap-year rule `calendar.isleap`. -/
def isLeapYear (y : Nat) : Bool := (y % 4 == 0 && y % 100 != 0) || y % 400 == 0

/-- Days in a month of a given year, as `datetime.date` validates them. -/
def daysInMonth (y m : Nat) : Nat :=
  if m = 2 then (if isLeapYear y then 29 else 28)
  else if m = 4 ∨ m = 6 ∨ m = 9 ∨ m = 11 then 30
  else 31

/-- The month token of CPython's `%m`: one digit `1`-`9`, or two digits `01`-`12`. -/
def monthTokOk : List Char → Bool
  | [c] => '1' ≤ c && c ≤ '9'
  | [c₁, c₂] => (c₁ == '0' && '1' ≤ c₂ && c₂ ≤ '9') || (c₁ == '1' && '0' ≤ c₂ && c₂ ≤ '2')
  | _ => false

/-- The day token of CPython's `%d`: one digit `1`-`9`, or two digits `01`-`31`. -/
def dayTokOk : List Char → Bool
  | [c] => '1' ≤ c && c ≤ '9'
  | [c₁, c₂] =>
      (c₁ == '0' && '1' ≤ c₂ && c₂ ≤ '9') ||
        ((c₁ == '1' || c₁ == '2') && c₂.isDigit) ||
          (c₁ == '3' && (c₂ == '0' || c₂ == '1'))
  | _ => false

/-- Split a character list at every occurrence of a separator character
(the semantics of Python's `s.split(sep)` for a one-character separator). -/
def splitOnChar (sep : Char) : List Char → List (List Char)
  | [] => [[]]
  | c :: cs =>
      match splitOnChar sep cs with
      | [] => [[]]
      | h :: t => if c == sep then [] :: h :: t else (c :: h) :: t

/-- `datetime.strptime(s, "%Y-%m-%d").date()`, returning `none` where Python raises
`ValueError`: the year is exactly four digits (and at least year 1), the month and
day tokens follow CPython's `%m`/`%d` patterns, nothing is left over, and the day
must exist in the month (February 29 only in leap years). -/
def parseDateYMD (s : String) : Option Date :=
  match splitOnChar '-' s.data with
  | [ys, ms, ds] =>
      if ys.length = 4 && ys.all Char.isDigit && monthTokOk ms && dayTokOk ds then
        let y := digitsToNat ys
        let m := digitsToNat ms
        let d := digitsToNat ds
        if 1 ≤ y && d ≤ daysInMonth y m then some ⟨y, m, d⟩ else none
      else none
  | _ => none

/-! ### The appointment store -/

/-- One persisted appointment record `{name, phone, date}` (the date is kept as the
string the user typed, exactly as the program stores it). -/
structure Appt where
  name : String
  phone : String
  date : String
deriving DecidableEq

/-- Outcome tag of the booking dialog's save action. -/
inductive BookOutcome where
  | ok
  | blank
  | badFormat
  | pastDate
deriving DecidableEq

/-- The `save_appointment` closure inside `book_appointment`: strip the three
fields, reject if any is blank, parse the date (rejecting bad formats) and reject
past dates; on success append the record and persist.  The returned list is the
persisted store after the action — every failure leaves it untouched. -/
def save_appointment (today : Date) (store : List Appt)
    (rawName rawPhone rawDate : String) : BookOutcome × List Appt :=
  if strip rawName = "" || strip rawPhone = "" || strip rawDate = "" then (.blank, store)
  else
    match parseDateYMD (strip rawDate) with
    | some d => if dlt d today then (.pastDate, store)
                else (.ok, store ++ [⟨strip rawName, strip rawPhone, strip rawDate⟩])
    | none => (.badFormat, store)

/-- The today-or-future filter at the top of `view_appointments`: keep the records
whose date parses and is not before today (records with unparseable dates are
skipped by the `except: continue`). -/
def upcoming_filter (today : Date) (stored : List Appt) : List Appt :=
  stored.filter (fun a =>
    match parseDateYMD a.date with
    | some d => !dlt d today
    | none => false)

/-- Stable insertion of a record into a list kept sorted by date string. -/
def insertByDate (x : Appt) : List Appt → List Appt
  | [] => [x]
  | y :: ys => if strLe x.date y.date then x :: y :: ys else y :: insertByDate x ys

/-- Stable sort by date string.  `view_appointments` sorts with Python's stable
`list.sort(key=lambda x: x.get("date"))`; a stable sort by a total preorder has a
unique result, so this insertion sort produces exactly the program's list. -/
def sortByDate : List Appt → List Appt
  | [] => []
  | x :: xs => insertByDate x (sortByDate xs)

/-- The upcoming-appointments view: filter to today-or-future, then sort by the
date string. -/
def view_upcoming (today : Date) (stored : List Appt) : List Appt :=
  sortByDate (upcoming_filter today stored)

/-- The `search_appointments` closure: normalise the query by stripping and
lowercasing; an empty normalised query shows the full list, otherwise keep the
records where the normalised query occurs in the lowercased name or in the phone. -/
def search_appointments (query : String) (upc : List Appt) : List Appt :=
  let q := lower (strip query)
  if q = "" then upc
  else upc.filter (fun a => strIn q (lower a.name) || strIn q a.phone)

/-- The record-keeping predicate stated by the claim's own words, for comparison
with the code: the query is a case-insensitive substring of the name, or a
(plain) substring of the phone. -/
def search_spec_keeps (query : String) (a : Appt) : Bool :=
  strIn (lower query) (lower a.name) || strIn query a.phone

/-- The replacement step of the `edit_selected` closure: walk the persisted list
and replace the first record whose name equals the edited record's name with the
edited record; if no name matches, append the edited record at the end. -/
def replace_first_by_name : List Appt → Appt → List Appt
  | [], e => [e]
  | a :: rest, e =>
      if a.name = e.name then e :: rest else a :: replace_first_by_name rest e

/-- Outcome tag of the edit dialog. -/
inductive EditOutcome where
  | ok
  | badFormat
  | pastDate
deriving DecidableEq

/-- The `edit_selected` closure, from the date prompt to the save: an empty (or
cancelled) date answer keeps the old date; a non-empty one must parse as
`%Y-%m-%d` and not lie in the past, otherwise the operation aborts with the
persisted list untouched.  An empty phone answer keeps the old phone.  On
success the merged record replaces the first name match in the persisted list
(appending if there is none) and the result is persisted. -/
def edit_selected (today : Date) (saved : List Appt) (appt_to_edit : Appt)
    (new_date_str new_phone : String) : EditOutcome × List Appt :=
  if new_date_str = "" then
    let e : Appt := { appt_to_edit with
      phone := if new_phone = "" then appt_to_edit.phone else new_phone }
    (.ok, replace_first_by_name saved e)
  else
    match parseDateYMD new_date_str with
    | none => (.badFormat, saved)
    | some d =>
        if dlt d today then (.pastDate, saved)
        else
          let e : Appt := { appt_to_edit with
            date := new_date_str,
            phone := if new_phone = "" then appt_to_edit.phone else new_phone }
          (.ok, replace_first_by_name saved e)

/-! ### JSON-backed persistence

The program reads and writes its two stores with Python's `json` module.  The
embedding models a file's contents at the level of the parsed JSON value:
`none` is a missing file and `some none` a file whose bytes fail to read or
parse (the serialisation round trip of the external `json` module itself is
outside the repository's code). -/

/-- A parsed JSON value as Python's `json.load` yields it. -/
inductive Json where
  | null
  | bool (b : Bool)
  | int (n : Int)
  | float (q : ℚ)
  | str (s : String)
  | arr (xs : List Json)
  | obj (kvs : List (String × Json))

/-- Truncation of a rational toward zero, as Python's `int(float)` truncates. -/
def truncRat (q : ℚ) : Int :=
  if q.num < 0 then -((q.num.natAbs / q.den : Nat) : Int) else ((q.num.natAbs / q.den : Nat) : Int)

/-- Python `int(str)`: strip whitespace, optional sign, decimal digits
(Python also accepts digit-group underscores, which no claim exercises). -/
def pyIntOfStr (s : String) : Option Int :=
  match (strip s).data with
  | [] => none
  | '+' :: ds =>
      if ds.isEmpty then none
      else if ds.all Char.isDigit then some (digitsToNat ds) else none
  | '-' :: ds =>
      if ds.isEmpty then none
      else if ds.all Char.isDigit then some (-(digitsToNat ds : Int)) else none
  | ds => if ds.all Char.isDigit then some (digitsToNat ds) else none

/-- Python `int(v)` on a parsed JSON value: `none` where Python raises
(`TypeError` for null/array/object, `ValueError` for a non-numeric string). -/
def pyInt : Json → Option Int
  | .bool b => some (if b then 1 else 0)
  | .int n => some n
  | .float q => some (truncRat q)
  | .str s => pyIntOfStr s
  | _ => none

/-- The dict comprehension `{str(k): int(v) for k, v in data.items()}`:
succeeds only if every value converts (keys of a parsed JSON object are
already strings and distinct). -/
def toIntEntries : List (String × Json) → Option (List (String × Int))
  | [] => some []
  | (k, v) :: rest =>
      match pyInt v with
      | none => none
      | some n => (toIntEntries rest).map (fun m => (k, n) :: m)

/-- `load_treatments`: a missing file, an unreadable/unparseable file, a parsed
value that is not an object, or an object with a non-integer-convertible value
all yield the empty catalog; the function is total, so it never raises. -/
def load_treatments (file : Option (Option Json)) : List (String × Int) :=
  match file with
  | none => []
  | some none => []
  | some (some j) =>
      match j with
      | .obj kvs =>
          match toIntEntries kvs with
          | some m => m
          | none => []
      | _ => []

/-- `save_treatments`: the JSON value `json.dump` writes for the in-memory
catalog (an object mapping each name to its integer price). -/
def save_treatments (m : List (String × Int)) : Json :=
  .obj (m.map (fun kv => (kv.1, .int kv.2)))

/-- `save_appointments`: the JSON value written for the appointment list (an
array of `{name, phone, date}` objects, keys in insertion order). -/
def save_appointments (l : List Appt) : Json :=
  .arr (l.map (fun a => .obj [("name", .str a.name), ("phone", .str a.phone), ("date", .str a.date)]))

/-- Reading one parsed appointment object back into a record, by the field
accesses the program performs on the loaded list. -/
def decode_appt : Json → Option Appt
  | .obj [("name", .str n), ("phone", .str p), ("date", .str d)] => some ⟨n, p, d⟩
  | _ => none

/-- Reading the parsed appointment array back into records. -/
def decode_appts : Json → Option (List Appt)
  | .arr xs => xs.mapM decode_appt
  | _ => none

/-! ### Helper lemmas -/

/-- One lexicographic comparison step, unfolded into its order-theoretic content. -/
theorem lexLe_cons_iff {a b : Char} {as bs : List Char} :
    lexLe (a :: as) (b :: bs) = true ↔ a < b ∨ (a = b ∧ lexLe as bs = true) := by
  rcases lt_trichotomy a b with h | h | h
  · simp [lexLe, h]
  · simp [lexLe, h, lt_irrefl]
  · simp [lexLe, h, not_lt_of_lt h, ne_of_gt h]

/-- `lexLe` is total. -/
theorem lexLe_total (as : List Char) : ∀ bs, lexLe as bs = true ∨ lexLe bs as = true := by
  induction as with
  | nil => intro bs; left; rfl
  | cons a as ih =>
      intro bs
      cases bs with
      | nil => right; rfl
      | cons b bs =>
          rcases lt_trichotomy a b with h | h | h
          · left; exact lexLe_cons_iff.mpr (Or.inl h)
          · rcases ih bs with h' | h'
            · left; exact lexLe_cons_iff.mpr (Or.inr ⟨h, h'⟩)
            · right; exact lexLe_cons_iff.mpr (Or.inr ⟨h.symm, h'⟩)
          · right; exact lexLe_cons_iff.mpr (Or.inl h)

/-- `lexLe` is transitive. -/
theorem lexLe_trans {as bs cs : List Char} (h₁ : lexLe as bs = true)
    (h₂ : lexLe bs cs = true) : lexLe as cs = true := by
  induction as generalizing bs cs with
  | nil => rfl
  | cons a as ih =>
      cases bs with
      | nil => exact absurd h₁ (by simp [lexLe])
      | cons b bs =>
          cases cs with
          | nil => exact absurd h₂ (by simp [lexLe])
          | cons c cs =>
              rcases lexLe_cons_iff.mp h₁ with hab | ⟨hab, htl₁⟩ <;>
                rcases lexLe_cons_iff.mp h₂ with hbc | ⟨hbc, htl₂⟩
              · exact lexLe_cons_iff.mpr (Or.inl (lt_trans hab hbc))
              · exact lexLe_cons_iff.mpr (Or.inl (hbc ▸ hab))
              · exact lexLe_cons_iff.mpr (Or.inl (hab ▸ hbc))
              · exact lexLe_cons_iff.mpr (Or.inr ⟨hab.trans hbc, ih htl₁ htl₂⟩)

/-- `strLe` is total. -/
theorem strLe_total (s t : String) : strLe s t = true ∨ strLe t s = true :=
  lexLe_total s.data t.data

/-- `strLe` is transitive. -/
theorem strLe_trans {s t u : String} (h₁ : strLe s t = true) (h₂ : strLe t u = true) :
    strLe s u = true :=
  lexLe_trans h₁ h₂

/-- Membership through `insertByDate`. -/
theorem mem_insertByDate {x y : Appt} {l : List Appt} :
    y ∈ insertByDate x l ↔ y = x ∨ y ∈ l := by
  induction l with
  | nil => simp [insertByDate]
  | cons z zs ih =>
      unfold insertByDate
      by_cases h : strLe x.date z.date = true
      · rw [if_pos h]; simp [List.mem_cons]
      · rw [if_neg h]; simp [List.mem_cons, ih]; tauto

/-- Membership through `sortByDate`. -/
theorem mem_sortByDate {y : Appt} {l : List Appt} : y ∈ sortByDate l ↔ y ∈ l := by
  induction l with
  | nil => simp [sortByDate]
  | cons z zs ih => simp [sortByDate, mem_insertByDate, ih, List.mem_cons]

/-- `insertByDate` preserves sortedness by date string. -/
theorem pairwise_insertByDate {x : Appt} {l : List Appt}
    (h : l.Pairwise (fun a b => strLe a.date b.date = true)) :
    (insertByDate x l).Pairwise (fun a b => strLe a.date b.date = true) := by
  induction l with
  | nil => simp [insertByDate]
  | cons y ys ih =>
      rw [List.pairwise_cons] at h
      obtain ⟨hy, hys⟩ := h
      unfold insertByDate
      by_cases hxy : strLe x.date y.date = true
      · rw [if_pos hxy]
        refine List.Pairwise.cons ?_ (List.Pairwise.cons hy hys)
        intro z hz
        rcases List.mem_cons.mp hz with rfl | hz
        · exact hxy
        · exact strLe_trans hxy (hy z hz)
      · rw [if_neg hxy]
        refine List.Pairwise.cons ?_ (ih hys)
        intro z hz
        rcases mem_insertByDate.mp hz with rfl | hz
        · rcases strLe_total z.date y.date with h' | h'
          · exact absurd h' hxy
          · exact h'
        · exact hy z hz

/-- `sortByDate` sorts non-decreasingly by date string. -/
theorem pairwise_sortByDate (l : List Appt) :
    (sortByDate l).Pairwise (fun a b => strLe a.date b.date = true) := by
  induction l with
  | nil => simp [sortByDate]
  | cons z zs ih => exact pairwise_insertByDate ih

/-- Replacing the first name match in a split list. -/
theorem replace_first_by_name_append (l₁ : List Appt) (a : Appt) (l₂ : List Appt) (e : Appt)
    (h₁ : ∀ x ∈ l₁, x.name ≠ e.name) (h₂ : a.name = e.name) :
    replace_first_by_name (l₁ ++ a :: l₂) e = l₁ ++ e :: l₂ := by
  induction l₁ with
  | nil => simp [replace_first_by_name, h₂]
  | cons b t ih =>
      simp only [List.cons_append, replace_first_by_name]
      rw [if_neg (h₁ b (List.mem_cons_self b t))]
      simp only [List.append_eq]
      rw [ih (fun x hx => h₁ x (List.mem_cons_of_mem b hx))]

/-- An entry that Python's `int` rejects makes the whole dict comprehension raise. -/
theorem toIntEntries_eq_none {kvs : List (String × Json)} {k : String} {v : Json}
    (hm : (k, v) ∈ kvs) (hv : pyInt v = none) : toIntEntries kvs = none := by
  induction kvs with
  | nil => cases hm
  | cons kv rest ih =>
      obtain ⟨k', v'⟩ := kv
      rcases List.mem_cons.mp hm with h | h
      · obtain ⟨rfl, rfl⟩ := Prod.mk.injEq .. ▸ h
        simp [toIntEntries, hv]
      · cases hp : pyInt v' with
        | none => simp [toIntEntries, hp]
        | some n => simp [toIntEntries, hp, ih h]

/-- The dict comprehension recovers an integer-valued catalog unchanged. -/
theorem toIntEntries_save (m : List (String × Int)) :
    toIntEntries (m.map (fun kv => (kv.1, .int kv.2))) = some m := by
  induction m with
  | nil => rfl
  | cons kv rest ih => simp [toIntEntries, pyInt, ih]

/-- Decoding recovers an encoded appointment list unchanged. -/
theorem decode_appts_save (l : List Appt) :
    decode_appts (save_appointments l) = some l := by
  show (l.map (fun a =>
      Json.obj [("name", .str a.name), ("phone", .str a.phone), ("date", .str a.date)])).mapM
        decode_appt = some l
  induction l with
  | nil => rfl
  | cons a rest ih => rw [List.map_cons, List.mapM_cons, ih]; rfl

/-- On a valid future date the edit reaches the replacement step with the merged record. -/
theorem edit_selected_ok (today : Date) (saved : List Appt) (tgt : Appt)
    (nds nph : String) (d : Date) (hparse : parseDateYMD nds = some d)
    (hfut : dlt d today = false) :
    edit_selected today saved tgt nds nph =
      (.ok, replace_first_by_name saved
        { tgt with date := nds, phone := if nph = "" then tgt.phone else nph }) := by
  have hne : ¬ nds = "" := by
    intro h
    rw [h] at hparse
    exact Option.noConfusion (show (none : Option Date) = some d from hparse)
  unfold edit_selected
  rw [if_neg hne]
  simp only [hparse]
  rw [if_neg (by simp [hfut])]

/-! ### The claims -/

/-- Claim C1: for a bill with treatment lines `[(A,100),(B,250)]`, a Normal
patient's rendered bill shows total exactly `350.00` and contains no subtotal or
discount line, while a VIP patient with discount 10 gets a subtotal line of
`350.00`, a discount line of `-35.00`, and a total line of `315.00`. -/
theorem normal_and_vip_bill_rendering :
    ((ljust "Total Bill" 35 ++ rjust "350.00" 20) ∈
      get_bill_text_lines ⟨"Alice", "0300", "Normal", 10, [("A", 100), ("B", 250)], ""⟩
        "01-01-2026 10:00 AM"
    ∧ ∀ l ∈ get_bill_text_lines ⟨"Alice", "0300", "Normal", 10, [("A", 100), ("B", 250)], ""⟩
        "01-01-2026 10:00 AM", strIn "Subtotal" l = false ∧ strIn "Discount" l = false)
    ∧ (ljust "Subtotal" 35 ++ rjust "350.00" 20) ∈
      get_bill_text_lines ⟨"Alice", "0300", "VIP", 10, [("A", 100), ("B", 250)], ""⟩
        "01-01-2026 10:00 AM"
    ∧ (ljust "VIP Discount (10%)" 35 ++ rjust "-35.00" 20) ∈
      get_bill_text_lines ⟨"Alice", "0300", "VIP", 10, [("A", 100), ("B", 250)], ""⟩
        "01-01-2026 10:00 AM"
    ∧ (ljust "Total Bill" 35 ++ rjust "315.00" 20) ∈
      get_bill_text_lines ⟨"Alice", "0300", "VIP", 10, [("A", 100), ("B", 250)], ""⟩
        "01-01-2026 10:00 AM" := by
  have hsN : bill_total ⟨"Alice", "0300", "Normal", 10, [("A", 100), ("B", 250)], ""⟩ = 350 := rfl
  have hsV : bill_total ⟨"Alice", "0300", "VIP", 10, [("A", 100), ("B", 250)], ""⟩ = 350 := rfl
  have hdN : bill_discount ⟨"Alice", "0300", "Normal", 10, [("A", 100), ("B", 250)], ""⟩ = 0 := by
    simp only [bill_discount]
    rw [if_neg (by decide)]
  have hdV : bill_discount ⟨"Alice", "0300", "VIP", 10, [("A", 100), ("B", 250)], ""⟩ = 35 := by
    simp only [bill_discount, hsV]
    norm_num
  have htN : bill_total_after ⟨"Alice", "0300", "Normal", 10, [("A", 100), ("B", 250)], ""⟩
      = 350 := by
    simp only [bill_total_after, hdN, hsN]
    norm_num
  have htV : bill_total_after ⟨"Alice", "0300", "VIP", 10, [("A", 100), ("B", 250)], ""⟩
      = 315 := by
    simp only [bill_total_after, hdV, hsV]
    norm_num
  simp only [get_bill_text_lines, hsN, hsV, hdN, hdV, htN, htV]
  decide

/-- Claim C2: the edit locates the persisted record to update by name only — the
first record whose name equals the target's is replaced with the fully merged
record, no matter what that record's phone and date are. -/
theorem edit_locates_by_name_only
    (today : Date) (l₁ : List Appt) (a : Appt) (l₂ : List Appt) (tgt : Appt)
    (new_date_str new_phone : String) (d : Date)
    (hparse : parseDateYMD new_date_str = some d) (hfut : dlt d today = false)
    (h₁ : ∀ x ∈ l₁, x.name ≠ tgt.name) (h₂ : a.name = tgt.name) :
    edit_selected today (l₁ ++ a :: l₂) tgt new_date_str new_phone =
      (.ok, l₁ ++ ({ name := tgt.name,
                     phone := if new_phone = "" then tgt.phone else new_phone,
                     date := new_date_str } : Appt) :: l₂) := by
  rw [edit_selected_ok today (l₁ ++ a :: l₂) tgt new_date_str new_phone d hparse hfut]
  rw [replace_first_by_name_append l₁ a l₂
    { name := tgt.name, phone := if new_phone = "" then tgt.phone else new_phone,
      date := new_date_str } h₁ h₂]

/-- Witness for C2: the record with a non-matching phone and date ("alice",
"999", "2020-01-01") is the one replaced, not the selected original, and the
later "alice" record is untouched. -/
theorem edit_locates_by_name_only_witness :
    edit_selected ⟨2025, 10, 12⟩
        [⟨"bob", "1", "2025-11-01"⟩, ⟨"alice", "999", "2020-01-01"⟩, ⟨"alice", "x", "2027-01-01"⟩]
        ⟨"alice", "7", "2025-12-01"⟩ "2026-03-04" "123" =
      (.ok, [⟨"bob", "1", "2025-11-01"⟩, ⟨"alice", "123", "2026-03-04"⟩,
             ⟨"alice", "x", "2027-01-01"⟩]) :=
  edit_locates_by_name_only ⟨2025, 10, 12⟩ [⟨"bob", "1", "2025-11-01"⟩]
    ⟨"alice", "999", "2020-01-01"⟩ [⟨"alice", "x", "2027-01-01"⟩] ⟨"alice", "7", "2025-12-01"⟩
    "2026-03-04" "123" ⟨2026, 3, 4⟩ (by decide) (by decide) (by decide) (by decide)

/-- Claim C3: a booking with a blank field, an unparseable date, or a past date
fails and leaves the store unchanged; an edit with an unparseable or past new
date fails and leaves the store unchanged.  "Not in YYYY-MM-DD form" is
formalised as rejection by the code's own format test (`strptime`-style
parsing, which also admits unpadded single-digit months and days). -/
theorem validation_rejects_bad_dates
    (today : Date) (store : List Appt) (nm ph ds : String)
    (tgt : Appt) (nds nph : String) :
    ((strip nm = "" ∨ strip ph = "" ∨ strip ds = "" ∨ parseDateYMD (strip ds) = none ∨
        (∃ d, parseDateYMD (strip ds) = some d ∧ dlt d today = true)) →
      (save_appointment today store nm ph ds).1 ≠ .ok ∧
        (save_appointment today store nm ph ds).2 = store)
    ∧ (nds ≠ "" →
        (parseDateYMD nds = none ∨ (∃ d, parseDateYMD nds = some d ∧ dlt d today = true)) →
      (edit_selected today store tgt nds nph).1 ≠ .ok ∧
        (edit_selected today store tgt nds nph).2 = store) := by
  constructor
  · intro h
    by_cases hb : (strip nm = "" || strip ph = "" || strip ds = "") = true
    · unfold save_appointment
      rw [if_pos hb]
      exact ⟨fun hc => BookOutcome.noConfusion hc, rfl⟩
    · have hnm : ¬ strip nm = "" := fun hh => hb (by simp [hh])
      have hph : ¬ strip ph = "" := fun hh => hb (by simp [hh])
      have hds : ¬ strip ds = "" := fun hh => hb (by simp [hh])
      unfold save_appointment
      rw [if_neg hb]
      rcases h with h | h | h | h | ⟨d, hd, hlt⟩
      · exact absurd h hnm
      · exact absurd h hph
      · exact absurd h hds
      · simp only [h]
        exact ⟨fun hc => BookOutcome.noConfusion hc, trivial⟩
      · simp only [hd]
        rw [if_pos hlt]
        exact ⟨fun hc => BookOutcome.noConfusion hc, rfl⟩
  · intro hne h
    unfold edit_selected
    rw [if_neg hne]
    rcases h with h | ⟨d, hd, hlt⟩
    · simp only [h]
      exact ⟨fun hc => EditOutcome.noConfusion hc, trivial⟩
    · simp only [hd]
      rw [if_pos hlt]
      exact ⟨fun hc => EditOutcome.noConfusion hc, rfl⟩

/-- Witness for C3: booking with the past date `2020-05-05` fails and leaves the
store unchanged, and editing with the malformed date `05/05/2026` fails and
leaves the store unchanged. -/
theorem validation_rejects_bad_dates_witness :
    (save_appointment ⟨2025, 10, 12⟩ [⟨"x", "1", "2026-01-01"⟩] "Bob" "0300" "2020-05-05").1
        ≠ .ok
    ∧ (save_appointment ⟨2025, 10, 12⟩ [⟨"x", "1", "2026-01-01"⟩] "Bob" "0300" "2020-05-05").2
        = [⟨"x", "1", "2026-01-01"⟩]
    ∧ (edit_selected ⟨2025, 10, 12⟩ [⟨"x", "1", "2026-01-01"⟩] ⟨"x", "1", "2026-01-01"⟩
        "05/05/2026" "").1 ≠ .ok
    ∧ (edit_selected ⟨2025, 10, 12⟩ [⟨"x", "1", "2026-01-01"⟩] ⟨"x", "1", "2026-01-01"⟩
        "05/05/2026" "").2 = [⟨"x", "1", "2026-01-01"⟩] := by
  have T := validation_rejects_bad_dates ⟨2025, 10, 12⟩ [⟨"x", "1", "2026-01-01"⟩] "Bob" "0300"
    "2020-05-05" ⟨"x", "1", "2026-01-01"⟩ "05/05/2026" ""
  have hb := T.1 (Or.inr (Or.inr (Or.inr (Or.inr ⟨⟨2020, 5, 5⟩, by decide, by decide⟩))))
  have he := T.2 (by decide) (Or.inl (by decide))
  exact ⟨hb.1, hb.2, he.1, he.2⟩

/-- Claim C4: the upcoming view never contains a record dated before today, every
returned record is (a copy of) a stored record, and the result is sorted
non-decreasingly by date string.  In this pure embedding the returned records
are values, so the "independent copy" aspect of `appt.copy()` is expressed as
value-level membership in the stored list. -/
theorem view_upcoming_spec (today : Date) (stored : List Appt) :
    (∀ a ∈ view_upcoming today stored,
        ∃ d, parseDateYMD a.date = some d ∧ dlt d today = false)
    ∧ (∀ a ∈ view_upcoming today stored, a ∈ stored)
    ∧ (view_upcoming today stored).Pairwise (fun a b => strLe a.date b.date = true) := by
  refine ⟨?_, ?_, pairwise_sortByDate _⟩
  · intro a ha
    have ha' : a ∈ sortByDate (upcoming_filter today stored) := ha
    have hf := mem_sortByDate.mp ha'
    rw [upcoming_filter, List.mem_filter] at hf
    obtain ⟨-, hcond⟩ := hf
    cases hp : parseDateYMD a.date with
    | none => rw [hp] at hcond; exact absurd hcond (by simp)
    | some d =>
        rw [hp] at hcond
        exact ⟨d, rfl, by simpa using hcond⟩
  · intro a ha
    have ha' : a ∈ sortByDate (upcoming_filter today stored) := ha
    have hf := mem_sortByDate.mp ha'
    rw [upcoming_filter, List.mem_filter] at hf
    exact hf.1

/-- Witness for C4 at a concrete store: the kept record parses to a non-past
date, a returned record is a stored one, and the concrete view is sorted. -/
theorem view_upcoming_spec_witness :
    (∃ d, parseDateYMD (Appt.date ⟨"a", "1", "2025-12-01"⟩) = some d ∧
        dlt d ⟨2025, 10, 12⟩ = false)
    ∧ (⟨"c", "3", "2025-11-01"⟩ : Appt) ∈
        ([⟨"a", "1", "2025-12-01"⟩, ⟨"b", "2", "2020-01-01"⟩, ⟨"c", "3", "2025-11-01"⟩] :
          List Appt)
    ∧ (view_upcoming ⟨2025, 10, 12⟩
        [⟨"a", "1", "2025-12-01"⟩, ⟨"b", "2", "2020-01-01"⟩,
         ⟨"c", "3", "2025-11-01"⟩]).Pairwise (fun a b => strLe a.date b.date = true) := by
  have T := view_upcoming_spec ⟨2025, 10, 12⟩
    [⟨"a", "1", "2025-12-01"⟩, ⟨"b", "2", "2020-01-01"⟩, ⟨"c", "3", "2025-11-01"⟩]
  exact ⟨T.1 ⟨"a", "1", "2025-12-01"⟩ (by decide), T.2.1 ⟨"c", "3", "2025-11-01"⟩ (by decide),
    T.2.2⟩

/-- Counterexample to claim C5 as stated: for the query `"A"` and a record whose
phone contains `"A"`, the claim's own predicate keeps the record (the raw query
is a substring of the phone), yet the code drops it — the code lowercases the
query before matching the phone, so an upper-case query letter can never match
a phone. -/
theorem search_query_case_counterexample :
    search_appointments "A" [⟨"Bob", "A-123", "2026-01-01"⟩] = []
    ∧ search_spec_keeps "A" ⟨"Bob", "A-123", "2026-01-01"⟩ = true
    ∧ search_appointments "A" [⟨"Bob", "A-123", "2026-01-01"⟩] ≠
        List.filter (search_spec_keeps "A") [⟨"Bob", "A-123", "2026-01-01"⟩] := by decide

/-- Claim C5 (amended): a query that is blank after stripping returns the input
list unchanged; otherwise the query is stripped and lowercased and the search
keeps exactly the records where this normalised query occurs in the lowercased
name or in the (unmodified) phone. -/
theorem search_appointments_spec (query : String) (l : List Appt) :
    (lower (strip query) = "" → search_appointments query l = l)
    ∧ (lower (strip query) ≠ "" → ∀ a : Appt, a ∈ search_appointments query l ↔
        a ∈ l ∧ (strIn (lower (strip query)) (lower a.name) ||
                  strIn (lower (strip query)) a.phone) = true) := by
  constructor
  · intro h
    simp only [search_appointments]
    rw [if_pos h]
  · intro h a
    simp only [search_appointments]
    rw [if_neg h]
    simp [List.mem_filter]

/-- Witness for the amended C5: a whitespace query keeps the list unchanged, and
the query `"OB"` matches `"Bob"` case-insensitively. -/
theorem search_appointments_spec_witness :
    search_appointments " " [⟨"Bob", "A-123", "2026-01-01"⟩] = [⟨"Bob", "A-123", "2026-01-01"⟩]
    ∧ ((⟨"Bob", "A-123", "2026-01-01"⟩ : Appt) ∈
        search_appointments "OB" [⟨"Bob", "A-123", "2026-01-01"⟩] ↔
        (⟨"Bob", "A-123", "2026-01-01"⟩ : Appt) ∈
            ([⟨"Bob", "A-123", "2026-01-01"⟩] : List Appt) ∧
          (strIn (lower (strip "OB")) (lower "Bob") ||
            strIn (lower (strip "OB")) "A-123") = true) := by
  refine ⟨(search_appointments_spec " " [⟨"Bob", "A-123", "2026-01-01"⟩]).1 (by decide), ?_⟩
  exact (search_appointments_spec "OB" [⟨"Bob", "A-123", "2026-01-01"⟩]).2 (by decide)
    ⟨"Bob", "A-123", "2026-01-01"⟩

/-- Counterexample to claim C6 as stated: the per-treatment line for a cost of
100 renders the integer as `100` with no decimal places, not `100.00`. -/
theorem treatment_line_no_decimals :
    (get_bill_text_lines ⟨"P", "1", "Normal", 10, [("A", 100)], ""⟩
        "01-01-2026 10:00 AM")[10]? = some (ljust "A" 35 ++ rjust "100" 20)
    ∧ strIn "100.00" (ljust "A" 35 ++ rjust "100" 20) = false
    ∧ strIn "100" (ljust "A" 35 ++ rjust "100" 20) = true := by
  have hs : bill_total ⟨"P", "1", "Normal", 10, [("A", 100)], ""⟩ = 100 := rfl
  have hd : bill_discount ⟨"P", "1", "Normal", 10, [("A", 100)], ""⟩ = 0 := by
    simp only [bill_discount]
    rw [if_neg (by decide)]
  have ht : bill_total_after ⟨"P", "1", "Normal", 10, [("A", 100)], ""⟩ = 100 := by
    simp only [bill_total_after, hd, hs]
    norm_num
  simp only [get_bill_text_lines, hs, hd, ht]
  decide

/-- Claim C6 (amended): the subtotal, discount and total monetary values are
rendered to two decimal places, while each per-treatment line price is rendered
as a plain integer with no decimal places. -/
theorem bill_money_rendering (p : Patient) (now : String) :
    (∀ t ∈ p.treatments,
        (ljust t.1 35 ++ rjust (toString t.2) 20) ∈ get_bill_text_lines p now)
    ∧ (ljust "Total Bill" 35 ++ rjust (fmt2 (bill_total_after p)) 20) ∈
        get_bill_text_lines p now
    ∧ (bill_discount p > 0 →
        (ljust "Subtotal" 35 ++ rjust (fmt2 (bill_total p : ℚ)) 20) ∈
            get_bill_text_lines p now
        ∧ (ljust ("VIP Discount (" ++ toString p.vip_discount ++ "%)") 35 ++
            rjust (fmt2 (-(bill_discount p))) 20) ∈ get_bill_text_lines p now) := by
  refine ⟨?_, ?_, ?_⟩
  · intro t ht
    simp only [get_bill_text_lines, List.mem_append, List.mem_map]
    exact Or.inl (Or.inl (Or.inl (Or.inr ⟨t, ht, rfl⟩)))
  · simp only [get_bill_text_lines, List.mem_append]
    exact Or.inr (List.mem_cons_self _ _)
  · intro h
    constructor
    · simp only [get_bill_text_lines, List.mem_append]
      refine Or.inl (Or.inr ?_)
      rw [if_pos h]
      exact List.mem_cons_self _ _
    · simp only [get_bill_text_lines, List.mem_append]
      refine Or.inl (Or.inr ?_)
      rw [if_pos h]
      exact List.mem_cons_of_mem _ (List.mem_cons_self _ _)

/-- Witness for the amended C6 at a concrete VIP bill. -/
theorem bill_money_rendering_witness :
    (ljust "A" 35 ++ rjust (toString (100 : Int)) 20) ∈
      get_bill_text_lines ⟨"V", "1", "VIP", 10, [("A", 100)], ""⟩ "01-01-2026 10:00 AM"
    ∧ (ljust "Total Bill" 35 ++
        rjust (fmt2 (bill_total_after ⟨"V", "1", "VIP", 10, [("A", 100)], ""⟩)) 20) ∈
      get_bill_text_lines ⟨"V", "1", "VIP", 10, [("A", 100)], ""⟩ "01-01-2026 10:00 AM"
    ∧ (ljust "Subtotal" 35 ++
        rjust (fmt2 (bill_total ⟨"V", "1", "VIP", 10, [("A", 100)], ""⟩ : ℚ)) 20) ∈
      get_bill_text_lines ⟨"V", "1", "VIP", 10, [("A", 100)], ""⟩ "01-01-2026 10:00 AM" := by
  have T := bill_money_rendering ⟨"V", "1", "VIP", 10, [("A", 100)], ""⟩ "01-01-2026 10:00 AM"
  have hpos : bill_discount ⟨"V", "1", "VIP", 10, [("A", 100)], ""⟩ > 0 := by
    have h10 : bill_discount ⟨"V", "1", "VIP", 10, [("A", 100)], ""⟩ = 10 := by
      simp only [bill_discount,
        show bill_total ⟨"V", "1", "VIP", 10, [("A", 100)], ""⟩ = 100 from rfl]
      norm_num
    rw [h10]
    norm_num
  exact ⟨T.1 ("A", 100) (by decide), T.2.1, (T.2.2 hpos).1⟩

/-- Claim C7: loading the treatment catalog from a missing file, an unreadable
or unparseable file, a parsed value that is not an object, or an object with a
wrongly typed entry yields the empty mapping; `load_treatments` is a total
function, so no error ever propagates to the caller. -/
theorem load_treatments_lenient (j : Json) (kvs : List (String × Json)) (k : String) (v : Json) :
    load_treatments none = []
    ∧ load_treatments (some none) = []
    ∧ ((∀ l : List (String × Json), j ≠ .obj l) → load_treatments (some (some j)) = [])
    ∧ ((k, v) ∈ kvs → pyInt v = none → load_treatments (some (some (.obj kvs))) = []) := by
  refine ⟨rfl, rfl, ?_, ?_⟩
  · intro h
    cases j with
    | obj l => exact absurd rfl (h l)
    | null => rfl
    | bool b => rfl
    | int n => rfl
    | float q => rfl
    | str s => rfl
    | arr xs => rfl
  · intro hm hv
    simp [load_treatments, toIntEntries_eq_none hm hv]

/-- Witness for C7: a non-object file and an object with a non-numeric string
value both load as the empty catalog. -/
theorem load_treatments_lenient_witness :
    load_treatments (some (some (.arr []))) = []
    ∧ load_treatments (some (some (.obj [("x", .str "abc")]))) = [] := by
  have T := load_treatments_lenient (.arr []) [("x", Json.str "abc")] "x" (.str "abc")
  exact ⟨T.2.2.1 (fun l h => Json.noConfusion h), T.2.2.2 (List.mem_cons_self _ _) rfl⟩

/-- Claim C8: with no generated bill in the session (`self.patient` is `None`,
i.e. the session is not in the Generated state), both the print action and the
save-to-file action stop at the not-ready error and hand nothing to the
print/save collaborator. -/
theorem not_generated_blocks_output (patient : Option Patient) (now : String)
    (h : patient = none) :
    print_bill_and_prescription patient now = .notReady ∧ save_to_txt patient now = .notReady := by
  subst h
  exact ⟨rfl, rfl⟩

/-- Witness for C8 at the fresh session state. -/
theorem not_generated_blocks_output_witness :
    print_bill_and_prescription none "01-01-2026 10:00 AM" = .notReady
    ∧ save_to_txt none "01-01-2026 10:00 AM" = .notReady :=
  not_generated_blocks_output none "01-01-2026 10:00 AM" rfl

/-- Claim C9: saving the in-memory treatment catalog or appointment list and
loading it back, with no intervening external edit, yields an identical
collection.  The catalog's keys are distinct because the in-memory catalog is a
Python dict. -/
theorem save_load_round_trip (m : List (String × Int)) (l : List Appt)
    (_hkeys : (m.map Prod.fst).Nodup) :
    load_treatments (some (some (save_treatments m))) = m
    ∧ decode_appts (save_appointments l) = some l := by
  refine ⟨?_, decode_appts_save l⟩
  simp [load_treatments, save_treatments, toIntEntries_save]

/-- Witness for C9 at a concrete catalog and appointment list. -/
theorem save_load_round_trip_witness :
    load_treatments (some (some (save_treatments [("Facial", 1500), ("PRP", 8000)]))) =
      [("Facial", 1500), ("PRP", 8000)]
    ∧ decode_appts (save_appointments [⟨"Bob", "0300", "2026-01-01"⟩]) =
      some [⟨"Bob", "0300", "2026-01-01"⟩] :=
  save_load_round_trip [("Facial", 1500), ("PRP", 8000)] [⟨"Bob", "0300", "2026-01-01"⟩]
    (by decide)

/-- Claim C10: when no persisted record's name matches the edited record's name,
the edited record is appended as a new entry; in every case the edited
(name, phone, date) ends up present and the list never shrinks. -/
theorem edit_appends_when_name_missing (saved : List Appt) (e : Appt) :
    ((∀ x ∈ saved, x.name ≠ e.name) → replace_first_by_name saved e = saved ++ [e])
    ∧ e ∈ replace_first_by_name saved e
    ∧ saved.length ≤ (replace_first_by_name saved e).length := by
  induction saved with
  | nil =>
      exact ⟨fun _ => rfl, List.mem_cons_self _ _, by simp [replace_first_by_name]⟩
  | cons a rest ih =>
      refine ⟨?_, ?_, ?_⟩
      · intro h
        unfold replace_first_by_name
        rw [if_neg (h a (List.mem_cons_self a rest))]
        rw [ih.1 (fun x hx => h x (List.mem_cons_of_mem a hx))]
        rfl
      · unfold replace_first_by_name
        by_cases hc : a.name = e.name
        · rw [if_pos hc]
          exact List.mem_cons_self _ _
        · rw [if_neg hc]
          exact List.mem_cons_of_mem a ih.2.1
      · unfold replace_first_by_name
        by_cases hc : a.name = e.name
        · rw [if_pos hc]
          simp
        · rw [if_neg hc]
          simpa using ih.2.2

/-- Witness for C10: editing "zoe" into a store that only has "bob" appends. -/
theorem edit_appends_when_name_missing_witness :
    replace_first_by_name [⟨"bob", "1", "2026-01-01"⟩] ⟨"zoe", "2", "2026-02-02"⟩ =
      [⟨"bob", "1", "2026-01-01"⟩] ++ [⟨"zoe", "2", "2026-02-02"⟩]
    ∧ (⟨"zoe", "2", "2026-02-02"⟩ : Appt) ∈
        replace_first_by_name [⟨"bob", "1", "2026-01-01"⟩] ⟨"zoe", "2", "2026-02-02"⟩
    ∧ ([⟨"bob", "1", "2026-01-01"⟩] : List Appt).length ≤
        (replace_first_by_name [⟨"bob", "1", "2026-01-01"⟩] ⟨"zoe", "2", "2026-02-02"⟩).length := by
  have T := edit_appends_when_name_missing [⟨"bob", "1", "2026-01-01"⟩] ⟨"zoe", "2", "2026-02-02"⟩
  exact ⟨T.1 (by decide), T.2.1, T.2.2⟩

end Clinic
